import Mathlib

/-
Verification of the data_seeder program (src/data_seeder.py) against its
natural-language specification.

The program synthesizes fake rows for the tables of a relational schema and
persists them.  This file gives a shallow embedding of the program:

* Column types are an inductive enumeration mirroring the SQLAlchemy type
  classes tested by isinstance in the source (DateTime, Boolean, Integer,
  Float, Interval, UUID, String), plus an "other" case for unsupported types.
* Randomness (the Faker calls and random.choice / random.randint) is modelled
  by an explicit stream of naturals consumed one draw at a time, and
  uuid.uuid4() by a monotone counter so that distinct draws give distinct
  identifiers.
* The database session is a mapping from table name to the list of persisted
  rows; external get-or-create persistence is modelled from the spec.
* The recursive row generator generate_fake_row_data is embedded with an
  explicit fuel parameter; running out of fuel is a distinguished error,
  and a missing model class during foreign-key resolution is a lookup error
  (the AttributeError raised by attribute access on None in the source).
-/

namespace DataSeeder

/-- Column data types: the seven SQLAlchemy type classes the source tests with
isinstance in get_data_type_mapper (src/data_seeder.py lines 86-106), plus
an "other" case standing for any unsupported/custom column type. -/
inductive DataType
  | datetime
  | boolean
  | integer
  | float
  | interval
  | uuid
  | string
  | other
deriving DecidableEq, Repr

/-- Generated cell values.  Each constructor records which generator produced
the value together with the consumed random draw(s); vUuid carries the index
of the uuid-counter draw, so distinct draws are distinct identifiers. -/
inductive Value
  | vDateTime (n : Nat)
  | vBool (b : Bool)
  | vInt (n : Nat)
  | vFloat (n : Nat)
  | vInterval (n : Nat)
  | vUuid (n : Nat)
  | vString (ws : List Nat)
deriving DecidableEq, Repr

/-- Errors a row-synthesis call can propagate: exhausted recursion fuel (the
embedding's bound), or the AttributeError raised when no model class can be
resolved for a table name during foreign-key resolution. -/
inductive GenErr
  | noFuel
  | missingModel (tableName : String)
deriving DecidableEq, Repr

/-- A row is the row_data dict of the source: an insertion-ordered association
list from column name to value (dict assignment updates in place). -/
abbrev Row := List (String × Value)

/-- Lookup of a column's value in a row (dict __getitem__, as an Option). -/
def getCol : Row → String → Option Value
  | [], _ => none
  | (k, v) :: r, k' => if k = k' then some v else getCol r k'

/-- Dict assignment row_data[column.name] = v: update in place if the key is
present, append otherwise. -/
def setCol : Row → String → Value → Row
  | [], k, v => [(k, v)]
  | (k', v') :: r, k, v => if k' = k then (k, v) :: r else (k', v') :: setCol r k v

/-- A foreign-key reference of a column: fk.column.table.name and
fk.column.name in the source. -/
structure FKey where
  tableName : String
  columnName : String
deriving DecidableEq, Repr

/-- A reflected column: name, declared type, primary-key flag and its (possibly
empty) list of foreign-key references (column.foreign_keys). -/
structure Column where
  name : String
  ty : DataType
  primary_key : Bool
  foreign_keys : List FKey
deriving DecidableEq, Repr

/-- A table of the schema: its name and ordered column list. -/
structure Table where
  name : String
  columns : List Column
deriving DecidableEq, Repr

/-- The mutable state threaded through a run: the database (table name to
persisted rows), the random stream with its cursor, and the uuid counter. -/
structure GenState where
  db : String → List Row
  stream : Nat → Nat
  cursor : Nat
  uuidCtr : Nat

/-- Consume one draw from the random stream (a Faker / random call). -/
def drawNat (st : GenState) : Nat × GenState :=
  (st.stream st.cursor, { st with cursor := st.cursor + 1 })

/-- Consume one uuid.uuid4() draw: the monotone counter guarantees that
distinct draws yield distinct identifier values. -/
def drawUuid (st : GenState) : Nat × GenState :=
  (st.uuidCtr, { st with uuidCtr := st.uuidCtr + 1 })

/-- Draw the given number of fake words (the 8 fake.word() calls joined into
one text value in the source). -/
def drawWords : Nat → GenState → List Nat × GenState
  | 0, st => ([], st)
  | n + 1, st =>
    let p := drawNat st
    let q := drawWords n p.2
    (p.1 :: q.1, q.2)

/-- Embeds get_data_type_mapper (src/data_seeder.py lines 79-106): builds, in
source order, one freshly drawn fake value per supported type.  Every call
consumes randomness for all seven entries, exactly as the source evaluates
every fake_type when constructing the SimpleNamespace list. -/
def get_data_type_mapper (st : GenState) : List (DataType × Value) × GenState :=
  let d1 := drawNat st
  let d2 := drawNat d1.2
  let d3 := drawNat d2.2
  let d4 := drawNat d3.2
  let d5 := drawNat d4.2
  let u := drawUuid d5.2
  let ws := drawWords 8 u.2
  ([(DataType.datetime, Value.vDateTime d1.1),
    (DataType.boolean, Value.vBool (d2.1 % 2 == 1)),
    (DataType.integer, Value.vInt (d3.1 % 10000)),
    (DataType.float, Value.vFloat d4.1),
    (DataType.interval, Value.vInterval (d5.1 % 86401)),
    (DataType.uuid, Value.vUuid u.1),
    (DataType.string, Value.vString ws.1)], ws.2)

/-- Configuration of one DataSeeder instance (src/data_seeder.py lines 7-17):
the requested record count, the exclude_list stored by the constructor, the
names of the tables present in the reflected live schema
(self.metadata.tables), the model-registry tables
(Base.metadata.sorted_tables) and the table names for which a model class is
importable. -/
structure Seeder where
  number_of_records : Nat
  exclude_list : List String
  reflected : List String
  registryTables : List Table
  modelRegistry : List String

/-- Embeds snake_to_pascal_case (src/data_seeder.py lines 19-28). -/
def snake_to_pascal_case (name : String) : String :=
  String.join ((name.splitOn "_").map (fun w => w.capitalize))

/-- Embeds get_model_class (src/data_seeder.py lines 46-60): dynamic import of
the model class named after the table.  When no route module provides the
class, every attempt is suppressed and the function falls through, returning
None; this is modelled by the registry membership test. -/
def get_model_class (sd : Seeder) (tableName : String) : Option String :=
  if sd.modelRegistry.contains tableName then
    some (snake_to_pascal_case tableName)
  else
    none

/-- The primary-key column names of a table (known to the external model
class, which enforces them on insert). -/
def pkNames (t : Table) : List String :=
  (t.columns.filter (fun c => c.primary_key)).map (fun c => c.name)

/-- Modelled from the spec: the external ModelHandle.get_or_create called by
save_model is app code outside src/.  Per the spec glossary, get-or-create
"inserts if absent and is a no-op (without error) for true duplicates,
converting uniqueness violations into silent skips": an exact duplicate row
is a no-op, a distinct row colliding with an existing row on a primary-key
value raises IntegrityError (none), otherwise the row is inserted. -/
def get_or_create (t : Table) (rows : List Row) (row : Row) : Option (List Row) :=
  if rows.contains row then
    some rows
  else if rows.any (fun r =>
      (pkNames t).any (fun k =>
        match getCol r k, getCol row k with
        | some a, some b => a == b
        | _, _ => false)) then
    none
  else
    some (rows ++ [row])

/-- Embeds save_model (src/data_seeder.py lines 30-44): attempt the
get-or-create insert and commit; on IntegrityError roll the single insert
back, leaving the database exactly as it was, and return normally. -/
def save_model (t : Table) (row : Row) (db : String → List Row) : String → List Row :=
  match get_or_create t (db t.name) row with
  | some rows => fun n => if n = t.name then rows else db n
  | none => db

/-- Embeds get_table_data (src/data_seeder.py lines 109-117): resolve the
model class for the table, then query all values of the given column.  When
get_model_class returns None the attribute access on None raises, which is
the missingModel error; rows lacking the column contribute nothing. -/
def get_table_data (sd : Seeder) (db : String → List Row) (tableName columnName : String) :
    Except GenErr (List Value) :=
  match get_model_class sd tableName with
  | none => Except.error (GenErr.missingModel tableName)
  | some _ => Except.ok ((db tableName).filterMap (fun r => getCol r columnName))

/-- Find a table of the registry metadata by name (the fk.column.table object
reference of the source, recovered by lookup in the embedding). -/
def findTable (l : List Table) (n : String) : Option Table :=
  l.find? (fun t => t.name == n)

/-- Embeds the isinstance(column.type, int) test of src/data_seeder.py line
142: column.type is a SQLAlchemy type object and never a Python int, so the
test is False for every column type. -/
def isPyInt (_ : DataType) : Bool := false

/-- The per-column type-registry loop (src/data_seeder.py lines 134-137):
assign the mapper's fake value for every entry whose type matches the
column's declared type. -/
def typeLoop (maps : List (DataType × Value)) (c : Column) (row : Row) : Row :=
  maps.foldl (fun r m => if m.1 == c.ty then setCol r c.name m.2 else r) row

/-- The primary-key override steps (src/data_seeder.py lines 139-143): a
primary key of UUID type is forced to a fresh identifier; the integer branch
follows, guarded by the always-false isPyInt test (its body would force the
product of two fresh random integers). -/
def pkOverride (c : Column) (row : Row) (st : GenState) : Row × GenState :=
  let s1 :=
    if c.primary_key && (c.ty == DataType.uuid) then
      let p := drawUuid st
      (setCol row c.name (Value.vUuid p.1), p.2)
    else
      (row, st)
  if c.primary_key && isPyInt c.ty then
    let p := drawNat s1.2
    let q := drawNat p.2
    (setCol s1.1 c.name (Value.vInt ((p.1 % 10000) * (q.1 % 10000))), q.2)
  else
    s1

/-- The foreign-key loop of generate_fake_row_data (src/data_seeder.py lines
146-156), parametrized by the recursive generator.  When target records
exist, one is chosen at random and assigned to the column; when none exist, a
full target row is generated recursively and persisted, and - exactly as in
the source - no value is assigned to the current column.  A dangling
reference (target table absent from the registry metadata) cannot arise in
the source, where the target table is held as an object reference; it is
skipped. -/
def genFks (recur : Table → GenState → Except GenErr (Row × GenState)) (sd : Seeder)
    (colName : String) : List FKey → Row → GenState → Except GenErr (Row × GenState)
  | [], row, st => Except.ok (row, st)
  | fk :: rest, row, st =>
    match get_table_data sd st.db fk.tableName fk.columnName with
    | Except.error e => Except.error e
    | Except.ok records =>
      if records.isEmpty then
        match findTable sd.registryTables fk.tableName with
        | none => genFks recur sd colName rest row st
        | some target =>
          match recur target st with
          | Except.error e => Except.error e
          | Except.ok (newData, st1) =>
            genFks recur sd colName rest row
              { st1 with db := save_model target newData st1.db }
      else
        let p := drawNat st
        genFks recur sd colName rest
          (setCol row colName (records.getD (p.1 % records.length) (Value.vInt 0))) p.2

/-- The per-column loop of generate_fake_row_data (src/data_seeder.py lines
130-156), parametrized by the recursive generator: build the type mapper,
assign the registry value, apply the primary-key overrides, then resolve the
column's foreign keys. -/
def genCols (recur : Table → GenState → Except GenErr (Row × GenState)) (sd : Seeder) :
    List Column → Row → GenState → Except GenErr (Row × GenState)
  | [], row, st => Except.ok (row, st)
  | c :: rest, row, st =>
    let m := get_data_type_mapper st
    let row1 := typeLoop m.1 c row
    let p := pkOverride c row1 m.2
    match genFks recur sd c.name c.foreign_keys p.1 p.2 with
    | Except.error e => Except.error e
    | Except.ok (row2, st2) => genCols recur sd rest row2 st2

/-- Embeds generate_fake_row_data (src/data_seeder.py lines 120-157) with an
explicit fuel bound on the recursion depth; exhausted fuel is the noFuel
error, which the theorems below show unreachable on acyclic schemas. -/
def generate_fake_row_data (sd : Seeder) : Nat → Table → GenState → Except GenErr (Row × GenState)
  | 0, _, _ => Except.error GenErr.noFuel
  | fuel + 1, table, st => genCols (generate_fake_row_data sd fuel) sd table.columns [] st

/-- Lexicographic comparison of code-point sequences, the order Python uses
when comparing the strings sorted(key=...) compares. -/
def lexLe : List Nat → List Nat → Bool
  | [], _ => true
  | _ :: _, [] => false
  | a :: as, b :: bs => if a < b then true else if b < a then false else lexLe as bs

/-- String comparison by code points (Python string comparison). -/
def strLe (a b : String) : Bool :=
  lexLe (a.data.map Char.toNat) (b.data.map Char.toNat)

/-- The table enumeration of get_model_metadata (src/data_seeder.py lines
63-77): registry tables sorted by name in reverse, keeping those present in
the reflected live schema for which a model class resolves.  The exclusion
test of the source is commented out on line 72, so exclude_list is never
consulted - faithfully reproduced here. -/
def get_model_metadata (sd : Seeder) : List Table :=
  (List.insertionSort (fun t u => strLe u.name t.name = true) sd.registryTables).filter
    (fun t => sd.reflected.contains t.name && (get_model_class sd t.name).isSome)

/-- Observable events of a run: a row synthesized for a table, a row handed to
save_model for a table by the driver loop, and the completion line printed
after a table (table, requested record count). -/
inductive Ev
  | synth (tbl : String)
  | persist (tbl : String)
  | note (tbl : String) (n : Nat)
deriving DecidableEq, Repr

/-- The inner loop of generate (src/data_seeder.py lines 170-172): repeat n
times, synthesizing one row and saving it, strictly sequentially. -/
def seedRows (sd : Seeder) (fuel : Nat) (t : Table) :
    Nat → GenState → Except GenErr (GenState × List Ev)
  | 0, st => Except.ok (st, [])
  | n + 1, st =>
    match generate_fake_row_data sd fuel t st with
    | Except.error e => Except.error e
    | Except.ok (row, st1) =>
      match seedRows sd fuel t n { st1 with db := save_model t row st1.db } with
      | Except.error e => Except.error e
      | Except.ok (st2, tr) =>
        Except.ok (st2, Ev.synth t.name :: Ev.persist t.name :: tr)

/-- The outer loop of generate over the model registry (src/data_seeder.py
lines 168-173): process each table fully, then print its completion line. -/
def seedTables (sd : Seeder) (fuel : Nat) :
    List Table → GenState → Except GenErr (GenState × List Ev)
  | [], st => Except.ok (st, [])
  | t :: rest, st =>
    match seedRows sd fuel t sd.number_of_records st with
    | Except.error e => Except.error e
    | Except.ok (st1, tr1) =>
      match seedTables sd fuel rest st1 with
      | Except.error e => Except.error e
      | Except.ok (st2, tr2) =>
        Except.ok (st2, tr1 ++ Ev.note t.name sd.number_of_records :: tr2)

/-- Embeds generate (src/data_seeder.py lines 160-173): the Batch Driver run
over the tables enumerated by get_model_metadata. -/
def generate (sd : Seeder) (fuel : Nat) (st : GenState) : Except GenErr (GenState × List Ev) :=
  seedTables sd fuel (get_model_metadata sd) st

/-- The event block one table contributes to the driver trace: n sequential
synthesize-persist pairs followed by the completion line. -/
def tableBlock (t : Table) (n : Nat) : List Ev :=
  (List.replicate n [Ev.synth t.name, Ev.persist t.name]).flatten ++ [Ev.note t.name n]

/-- The driver trace predicted from the configuration alone: the per-table
blocks of the enumerated tables, in enumeration order. -/
def expectedTrace (sd : Seeder) : List Ev :=
  (get_model_metadata sd).flatMap (fun t => tableBlock t sd.number_of_records)

/-- Boolean check that a table list is in reverse-name order (each name is
greater than or equal to its successor's). -/
def sortedRev : List Table → Bool
  | [] => true
  | [_] => true
  | t :: u :: r => strLe u.name t.name && sortedRev (u :: r)

/-- Boolean check that every table of the list is part of the reflected
schema. -/
def allReflected (sd : Seeder) (l : List Table) : Bool :=
  l.all (fun t => sd.reflected.contains t.name)

/-- The generated value of one column in a row-synthesis result (none on
error). -/
def rowValueOfResult (r : Except GenErr (Row × GenState)) (k : String) : Option Value :=
  match r with
  | Except.ok (row, _) => getCol row k
  | Except.error _ => none

/-- The values stored in one column of one table of the database after a
row-synthesis result (empty on error). -/
def dbColValues (r : Except GenErr (Row × GenState)) (tbl col : String) : List Value :=
  match r with
  | Except.ok (_, st) => (st.db tbl).filterMap (fun row => getCol row col)
  | Except.error _ => []

/-- The uuid counter after a row-synthesis result (none on error). -/
def uuidCtrAfter (r : Except GenErr (Row × GenState)) : Option Nat :=
  match r with
  | Except.ok (_, st) => some st.uuidCtr
  | Except.error _ => none

/-- The number of rows stored for a table after a driver run (none on
error). -/
def dbRowsAfter (r : Except GenErr (GenState × List Ev)) (tbl : String) : Option Nat :=
  match r with
  | Except.ok (st, _) => some ((st.db tbl).length)
  | Except.error _ => none

/-- Whether an optional value is a unique identifier drawn in the counter
interval [lo, hi): the shape of a freshly generated identifier. -/
def isFreshUuidIn (v : Option Value) (lo hi : Nat) : Prop :=
  match v with
  | some (Value.vUuid k) => lo ≤ k ∧ k < hi
  | _ => False

instance (v : Option Value) (lo hi : Nat) : Decidable (isFreshUuidIn v lo hi) := by
  unfold isFreshUuidIn
  split <;> infer_instance

/-- Whether a declared column type is one of the seven supported types of the
type registry (the spec's closed set minus "other"). -/
def supported : DataType → Bool
  | DataType.other => false
  | _ => true

/- Concrete fixtures used by the witnesses and counterexamples below.  The
random stream is the identity, so draw i yields i; databases start empty
unless noted. -/

/-- Initial state with an empty database and the identity random stream. -/
def stEmpty : GenState :=
  { db := fun _ => [], stream := fun i => i, cursor := 0, uuidCtr := 0 }

/-- Table b: one primary-key column of UUID type, no foreign keys. -/
def tblB : Table :=
  { name := "b",
    columns := [{ name := "bid", ty := DataType.uuid, primary_key := true,
                  foreign_keys := [] }] }

/-- Table a: one integer column holding a foreign key into b.bid. -/
def tblA : Table :=
  { name := "a",
    columns := [{ name := "aid", ty := DataType.integer, primary_key := false,
                  foreign_keys := [{ tableName := "b", columnName := "bid" }] }] }

/-- Seeder over tables a and b, both reflected and with model classes. -/
def sdAB : Seeder :=
  { number_of_records := 1, exclude_list := [], reflected := ["a", "b"],
    registryTables := [tblA, tblB], modelRegistry := ["a", "b"] }

/-- The audit_log table of the exclusion scenario. -/
def tblAudit : Table :=
  { name := "audit_log",
    columns := [{ name := "flag", ty := DataType.boolean, primary_key := false,
                  foreign_keys := [] }] }

/-- Seeder whose exclude_list names audit_log, which is nevertheless present
in the reflected schema and the model registry. -/
def sdAudit : Seeder :=
  { number_of_records := 1, exclude_list := ["audit_log"],
    reflected := ["audit_log"], registryTables := [tblAudit],
    modelRegistry := ["audit_log"] }

/-- Table c: one primary-key column of integer type. -/
def tblIntPk : Table :=
  { name := "c",
    columns := [{ name := "cid", ty := DataType.integer, primary_key := true,
                  foreign_keys := [] }] }

/-- Seeder over the integer-primary-key table. -/
def sdIntPk : Seeder :=
  { number_of_records := 1, exclude_list := [], reflected := ["c"],
    registryTables := [tblIntPk], modelRegistry := ["c"] }

/-- Table d: a primary-key UUID column that also carries a foreign key into
b.bid. -/
def tblUuidFk : Table :=
  { name := "d",
    columns := [{ name := "did", ty := DataType.uuid, primary_key := true,
                  foreign_keys := [{ tableName := "b", columnName := "bid" }] }] }

/-- Seeder over tables d and b. -/
def sdUuidFk : Seeder :=
  { number_of_records := 1, exclude_list := [], reflected := ["b", "d"],
    registryTables := [tblUuidFk, tblB], modelRegistry := ["b", "d"] }

/-- State whose database already holds one b-row with key vUuid 99. -/
def stPre99 : GenState :=
  { db := fun n => if n = "b" then [[("bid", Value.vUuid 99)]] else [],
    stream := fun i => i, cursor := 0, uuidCtr := 0 }

/-- Table e: a column of unsupported type that carries a foreign key into
b.bid. -/
def tblOtherFk : Table :=
  { name := "e",
    columns := [{ name := "eid", ty := DataType.other, primary_key := false,
                  foreign_keys := [{ tableName := "b", columnName := "bid" }] }] }

/-- Seeder over tables e and b. -/
def sdOtherFk : Seeder :=
  { number_of_records := 1, exclude_list := [], reflected := ["b", "e"],
    registryTables := [tblOtherFk, tblB], modelRegistry := ["b", "e"] }

/-- State whose database already holds one b-row with key vUuid 7. -/
def stPre7 : GenState :=
  { db := fun n => if n = "b" then [[("bid", Value.vUuid 7)]] else [],
    stream := fun i => i, cursor := 0, uuidCtr := 0 }

/-- State whose database already holds a b-row with key vUuid 1 and one extra
field, so a freshly generated b-row collides on the key without being an
exact duplicate. -/
def stDup : GenState :=
  { db := fun n => if n = "b" then [[("bid", Value.vUuid 1), ("x", Value.vBool true)]] else [],
    stream := fun i => i, cursor := 0, uuidCtr := 0 }

/-- Seeder over table b alone. -/
def sdOnlyB : Seeder :=
  { number_of_records := 1, exclude_list := [], reflected := ["b"],
    registryTables := [tblB], modelRegistry := ["b"] }

/-- The result of synthesizing one b-row from the collision state. -/
def resDup : Except GenErr (Row × GenState) :=
  generate_fake_row_data sdOnlyB 1 tblB stDup

/-- The row of resDup. -/
def rowDup : Row :=
  match resDup with
  | Except.ok (r, _) => r
  | Except.error _ => []

/-- The final state of resDup. -/
def stateDup : GenState :=
  match resDup with
  | Except.ok (_, s) => s
  | Except.error _ => stDup

/-- Table o: a single column of unsupported type with no foreign keys. -/
def tblOther : Table :=
  { name := "o",
    columns := [{ name := "blob", ty := DataType.other, primary_key := false,
                  foreign_keys := [] }] }

/-- Seeder over table o. -/
def sdOther : Seeder :=
  { number_of_records := 1, exclude_list := [], reflected := ["o"],
    registryTables := [tblOther], modelRegistry := ["o"] }

/-- The result of synthesizing one o-row from the empty state. -/
def resOther : Except GenErr (Row × GenState) :=
  generate_fake_row_data sdOther 1 tblOther stEmpty

/-- The row of resOther. -/
def rowOther : Row :=
  match resOther with
  | Except.ok (r, _) => r
  | Except.error _ => []

/-- The final state of resOther. -/
def stateOther : GenState :=
  match resOther with
  | Except.ok (_, s) => s
  | Except.error _ => stEmpty

/-- Table m, present in the reflected schema but with no model class in the
registry. -/
def tblM : Table :=
  { name := "m",
    columns := [{ name := "flag", ty := DataType.boolean, primary_key := false,
                  foreign_keys := [] }] }

/-- Seeder whose model registry is empty, so no model class resolves for
table m. -/
def sdM : Seeder :=
  { number_of_records := 1, exclude_list := [], reflected := ["m"],
    registryTables := [tblM], modelRegistry := [] }

/-- A ranking witnessing that the foreign-key graph of sdAB is acyclic:
table a (rank 1) only references table b (rank 0). -/
def rankAB (n : String) : Nat := if n = "a" then 1 else 0

/-- The acyclicity witness for one foreign-key edge: the rank of the resolved
target table is strictly below the rank of the source table.  A rank function
satisfying this on every edge exists exactly when the foreign-key reference
graph is acyclic. -/
def rankDecreases (sd : Seeder) (rank : String → Nat) (t : Table) (fk : FKey) : Prop :=
  match findTable sd.registryTables fk.tableName with
  | some u => rank u.name < rank t.name
  | none => True

instance (sd : Seeder) (rank : String → Nat) (t : Table) (fk : FKey) :
    Decidable (rankDecreases sd rank t fk) := by
  unfold rankDecreases
  split <;> infer_instance

/-- The result of a full driver run over sdAB. -/
def resGenAB : Except GenErr (GenState × List Ev) := generate sdAB 2 stEmpty

/-- The final state of resGenAB. -/
def stGenAB : GenState :=
  match resGenAB with
  | Except.ok (s, _) => s
  | Except.error _ => stEmpty

/-- The trace of resGenAB. -/
def trGenAB : List Ev :=
  match resGenAB with
  | Except.ok (_, tr) => tr
  | Except.error _ => []

/-- C1: synthesizing a row for table a while table b is empty recursively
creates and persists a b-row whose key is vUuid 2, yet the foreign-key
column aid of the returned row holds the registry value vInt 2, not that
key and not any pre-existing value (b starts empty): the foreign-key column
is never linked to the row the recursion just created, although the created
row is persisted.  This contradicts the claim, and the source's own
docstring "link fk to existing record, or make one first then build
relationship" - the relationship is never built. -/
theorem fk_value_not_linked_to_created_row :
    stEmpty.db "b" = [] ∧
    dbColValues (generate_fake_row_data sdAB 3 tblA stEmpty) "b" "bid"
      = [Value.vUuid 2] ∧
    rowValueOfResult (generate_fake_row_data sdAB 3 tblA stEmpty) "aid"
      = some (Value.vInt 2) ∧
    some (Value.vInt 2) ≠ some (Value.vUuid 2) := by
  refine ⟨rfl, by decide, by decide, by decide⟩

/-- C2: the exclusion test of get_model_metadata is commented out in the
source (src/data_seeder.py line 72), so a run whose exclude_list names
audit_log still generates and persists a row for audit_log even though the
constructor stores the exclusion list for exactly this purpose. -/
theorem exclude_list_ignored :
    sdAudit.exclude_list.contains "audit_log" = true ∧
    dbRowsAfter (generate sdAudit 2 stEmpty) "audit_log" = some 1 := by
  refine ⟨by decide, by decide⟩

/-- C3: the integer primary-key branch tests isinstance(column.type, int)
(src/data_seeder.py line 142), which is False for every SQLAlchemy column
type, so the product-of-two-random-integers override never fires: the
primary-key column cid of integer type keeps the plain registry draw vInt 2
(stream draw 2 modulo 10000) instead of being forced to a product of two
independently drawn integers. -/
theorem integer_pk_product_override_never_fires :
    (∀ ty : DataType, isPyInt ty = false) ∧
    rowValueOfResult (generate_fake_row_data sdIntPk 2 tblIntPk stEmpty) "cid"
      = some (Value.vInt 2) := by
  refine ⟨fun ty => rfl, by decide⟩

/-- C4 (counterexample): table m is present in the reflected schema but has
no model class; the run neither fails nor aborts - generate returns
successfully with an empty trace and zero rows for m, silently skipping the
table, contradicting the claim that the lookup failure propagates and the
table's generation is aborted rather than silently skipped. -/
theorem missing_model_silently_skipped :
    generate sdM 2 stEmpty = Except.ok (stEmpty, []) ∧
    dbRowsAfter (generate sdM 2 stEmpty) "m" = some 0 := by
  refine ⟨rfl, by decide⟩

/-- C4 (amended): only during foreign-key resolution does a missing model
class surface: for a table whose column references a target table with no
model class, row synthesis aborts with the lookup failure (the attribute
access on None in get_table_data), which propagates to the caller. -/
theorem missing_model_fk_lookup_propagates (sd : Seeder) (fuel : Nat)
    (tname cname : String) (ty : DataType) (pk : Bool) (u ucol : String)
    (st : GenState) (hu : u ∉ sd.modelRegistry) :
    generate_fake_row_data sd (fuel + 1)
      { name := tname,
        columns := [{ name := cname, ty := ty, primary_key := pk,
                      foreign_keys := [{ tableName := u, columnName := ucol }] }] }
      st = Except.error (GenErr.missingModel u) := by
  simp [generate_fake_row_data, genCols, genFks, get_table_data, get_model_class, hu]

/-- C4 (witness): with the model registry of sdAB, which contains no class
for table name nope, synthesizing a row for a table with a foreign key into
nope aborts with the lookup failure. -/
theorem missing_model_fk_lookup_propagates_witness :
    sdAB.modelRegistry.contains "nope" = false ∧
    generate_fake_row_data sdAB 1
      { name := "t1",
        columns := [{ name := "x", ty := DataType.integer, primary_key := false,
                      foreign_keys := [{ tableName := "nope", columnName := "id" }] }] }
      stEmpty = Except.error (GenErr.missingModel "nope") :=
  ⟨by decide,
   missing_model_fk_lookup_propagates sdAB 0 "t1" "x" DataType.integer false
     "nope" "id" stEmpty (by decide)⟩

/-- C5: when the row synthesized for one record collides on a primary-key
value with an existing row without being an exact duplicate, the
get-or-create insert raises IntegrityError and save_model rolls exactly that
single insert back (the database is unchanged), and the driver loop
continues with the remaining n records exactly as if started from the
post-synthesis state: the violation is not surfaced (the outcome is the
outcome of the remaining records, never an error of this insert) and the
collided row is never retried or regenerated. -/
theorem save_model_violation_rolls_back_and_continues (sd : Seeder) (fuel : Nat)
    (t : Table) (st : GenState) (row : Row) (st1 : GenState) (n : Nat)
    (hgen : generate_fake_row_data sd fuel t st = Except.ok (row, st1))
    (hdup : (st1.db t.name).contains row = false)
    (hviol : (st1.db t.name).any (fun r =>
        (pkNames t).any (fun k =>
          match getCol r k, getCol row k with
          | some a, some b => a == b
          | _, _ => false)) = true) :
    save_model t row st1.db = st1.db ∧
    seedRows sd fuel t (n + 1) st =
      Except.map (fun p => (p.1, Ev.synth t.name :: Ev.persist t.name :: p.2))
        (seedRows sd fuel t n st1) := by
  have hsave : save_model t row st1.db = st1.db := by
    unfold save_model get_or_create
    rw [hdup, hviol]
    simp
  refine ⟨hsave, ?_⟩
  show (match generate_fake_row_data sd fuel t st with
    | Except.error e => Except.error e
    | Except.ok (row, st1) =>
      match seedRows sd fuel t n { st1 with db := save_model t row st1.db } with
      | Except.error e => Except.error e
      | Except.ok (st2, tr) =>
        Except.ok (st2, Ev.synth t.name :: Ev.persist t.name :: tr)) = _
  rw [hgen]
  dsimp only
  rw [hsave]
  have heta : GenState.mk st1.db st1.stream st1.cursor st1.uuidCtr = st1 := rfl
  rw [heta]
  cases hrec : seedRows sd fuel t n st1 with
  | error e => simp [Except.map]
  | ok p => cases p with
    | mk st2 tr => simp [Except.map]

/-- C5 (witness): synthesizing one b-row from stDup produces the row
containing only the key vUuid 1, which collides with the pre-existing b-row
on the key without duplicating it; the save is rolled back and the loop for
the remaining zero records proceeds from the post-synthesis state. -/
theorem save_model_violation_rolls_back_and_continues_witness :
    save_model tblB rowDup stateDup.db = stateDup.db ∧
    seedRows sdOnlyB 1 tblB 1 stDup =
      Except.map (fun p => (p.1, Ev.synth tblB.name :: Ev.persist tblB.name :: p.2))
        (seedRows sdOnlyB 1 tblB 0 stateDup) :=
  save_model_violation_rolls_back_and_continues sdOnlyB 1 tblB stDup rowDup stateDup 0
    (by rfl) (by decide) (by decide)

/-- C7 (counterexample): the did column of table d is a primary key of UUID
type, yet its foreign key into b.bid resolves afterwards and overwrites the
fresh identifier with the pre-existing value vUuid 99; the identifiers
freshly drawn during this call are exactly those with counter value below
the final counter 2, and 99 is not among them, so the synthesized value is
not a freshly generated identifier. -/
theorem pk_uuid_value_not_fresh_with_fk :
    rowValueOfResult (generate_fake_row_data sdUuidFk 2 tblUuidFk stPre99) "did"
      = some (Value.vUuid 99) ∧
    uuidCtrAfter (generate_fake_row_data sdUuidFk 2 tblUuidFk stPre99) = some 2 ∧
    ¬ isFreshUuidIn
        (rowValueOfResult (generate_fake_row_data sdUuidFk 2 tblUuidFk stPre99) "did")
        stPre99.uuidCtr 2 := by
  refine ⟨by decide, by decide, by decide⟩

/-- C8 (counterexample): the eid column of table e has an unsupported
declared type, yet the generated row does not omit it: its foreign key into
b.bid resolves to the pre-existing value vUuid 7, which is assigned to the
column. -/
theorem unsupported_fk_column_receives_value :
    supported DataType.other = false ∧
    rowValueOfResult (generate_fake_row_data sdOtherFk 2 tblOtherFk stPre7) "eid"
      = some (Value.vUuid 7) := by
  refine ⟨rfl, by decide⟩

/-- Totality of the lexicographic comparison. -/
theorem lexLe_total (a : List Nat) : ∀ b, lexLe a b = true ∨ lexLe b a = true := by
  induction a with
  | nil => intro b; left; rfl
  | cons x xs ih =>
    intro b
    cases b with
    | nil => right; rfl
    | cons y ys =>
      by_cases h1 : x < y
      · left; simp [lexLe, h1]
      · by_cases h2 : y < x
        · right; simp [lexLe, h2]
        · rcases ih ys with h | h
          · left; simp [lexLe, h1, h2, h]
          · right; simp [lexLe, h1, h2, h]

/-- Transitivity of the lexicographic comparison. -/
theorem lexLe_trans (a : List Nat) :
    ∀ b c, lexLe a b = true → lexLe b c = true → lexLe a c = true := by
  induction a with
  | nil => intro b c _ _; rfl
  | cons x xs ih =>
    intro b c h1 h2
    cases b with
    | nil => exact absurd h1 (by simp [lexLe])
    | cons y ys =>
      cases c with
      | nil => exact absurd h2 (by simp [lexLe])
      | cons z zs =>
        by_cases hxy : x < y
        · by_cases hyz : y < z
          · simp [lexLe, show x < z by omega]
          · by_cases hzy : z < y
            · simp [lexLe, hyz, hzy] at h2
            · simp [lexLe, show x < z by omega]
        · by_cases hyx : y < x
          · simp [lexLe, hxy, hyx] at h1
          · by_cases hyz : y < z
            · simp [lexLe, show x < z by omega]
            · by_cases hzy : z < y
              · simp [lexLe, hyz, hzy] at h2
              · simp only [lexLe, if_neg hxy, if_neg hyx] at h1
                simp only [lexLe, if_neg hyz, if_neg hzy] at h2
                simp only [lexLe, if_neg (show ¬ x < z by omega),
                  if_neg (show ¬ z < x by omega)]
                exact ih ys zs h1 h2

/-- A list sorted for the reverse-name relation passes the boolean check. -/
theorem sortedRev_of_sorted :
    ∀ l : List Table, List.Sorted (fun t u => strLe u.name t.name = true) l →
      sortedRev l = true := by
  intro l h
  induction l with
  | nil => rfl
  | cons t rest ih =>
    cases rest with
    | nil => rfl
    | cons u r =>
      rw [List.sorted_cons] at h
      have h1 : strLe u.name t.name = true := h.1 u (by simp)
      have h2 : sortedRev (u :: r) = true := ih h.2
      simp [sortedRev, h1, h2]

/-- The table list of get_model_metadata is in reverse-name order: the
insertionSort of the source's sorted(..., reverse=True) produces a list
sorted for the reverse-name relation, and filtering preserves it. -/
theorem get_model_metadata_sortedRev (sd : Seeder) :
    sortedRev (get_model_metadata sd) = true := by
  apply sortedRev_of_sorted
  unfold get_model_metadata
  apply List.Pairwise.sublist (List.filter_sublist _)
  haveI : IsTotal Table (fun t u => strLe u.name t.name = true) :=
    ⟨fun a b => (lexLe_total _ _).symm⟩
  haveI : IsTrans Table (fun t u => strLe u.name t.name = true) :=
    ⟨fun a b c hab hbc => lexLe_trans _ _ _ hbc hab⟩
  exact List.sorted_insertionSort _ _

/-- Every table get_model_metadata enumerates is part of the reflected
schema. -/
theorem get_model_metadata_reflected (sd : Seeder) :
    allReflected sd (get_model_metadata sd) = true := by
  unfold allReflected
  rw [List.all_eq_true]
  intro t ht
  have hp := (List.mem_filter.mp ht).2
  rw [Bool.and_eq_true] at hp
  exact hp.1

/-- The trace of the inner record loop for one table: n synthesize-persist
pairs, strictly sequentially. -/
theorem seedRows_trace (sd : Seeder) (fuel : Nat) (t : Table) :
    ∀ n st st' tr, seedRows sd fuel t n st = Except.ok (st', tr) →
      tr = (List.replicate n [Ev.synth t.name, Ev.persist t.name]).flatten := by
  intro n
  induction n with
  | zero =>
    intro st st' tr h
    simp only [seedRows] at h
    cases h
    rfl
  | succ n ih =>
    intro st st' tr h
    simp only [seedRows] at h
    cases hg : generate_fake_row_data sd fuel t st with
    | error e => rw [hg] at h; cases h
    | ok p =>
      obtain ⟨row, st1⟩ := p
      rw [hg] at h
      dsimp only at h
      cases hr : seedRows sd fuel t n { st1 with db := save_model t row st1.db } with
      | error e => rw [hr] at h; cases h
      | ok q =>
        obtain ⟨st2, tr2⟩ := q
        rw [hr] at h
        dsimp only at h
        cases h
        simp [List.replicate_succ, ih _ _ _ hr]

/-- The trace of the outer table loop: the per-table blocks in list order. -/
theorem seedTables_trace (sd : Seeder) (fuel : Nat) :
    ∀ ts st st' tr, seedTables sd fuel ts st = Except.ok (st', tr) →
      tr = ts.flatMap (fun t => tableBlock t sd.number_of_records) := by
  intro ts
  induction ts with
  | nil =>
    intro st st' tr h
    simp only [seedTables] at h
    cases h
    rfl
  | cons t rest ih =>
    intro st st' tr h
    simp only [seedTables] at h
    cases hr : seedRows sd fuel t sd.number_of_records st with
    | error e => rw [hr] at h; cases h
    | ok p =>
      obtain ⟨st1, tr1⟩ := p
      rw [hr] at h
      dsimp only at h
      cases hts : seedTables sd fuel rest st1 with
      | error e => rw [hts] at h; cases h
      | ok q =>
        obtain ⟨st2, tr2⟩ := q
        rw [hts] at h
        dsimp only at h
        cases h
        simp [tableBlock, seedRows_trace sd fuel t _ _ _ _ hr, ih _ _ _ hts]

/-- C9: on any successful run, the Batch Driver's table list is the
reflected-schema restriction in reverse lexicographic name order, and the
driver trace is exactly the concatenation, in that order, of per-table
blocks of recordCount sequential synthesize-persist pairs followed by the
completion line: all rows of one table are synthesized and persisted before
the next table begins. -/
theorem generate_order_and_sequencing (sd : Seeder) (fuel : Nat) (st st' : GenState)
    (tr : List Ev) (h : generate sd fuel st = Except.ok (st', tr)) :
    sortedRev (get_model_metadata sd) = true ∧
    allReflected sd (get_model_metadata sd) = true ∧
    tr = expectedTrace sd := by
  refine ⟨get_model_metadata_sortedRev sd, get_model_metadata_reflected sd, ?_⟩
  have := seedTables_trace sd fuel (get_model_metadata sd) st st' tr h
  simpa [expectedTrace] using this

/-- C9 (witness): the run over sdAB succeeds; its tables come out in reverse
name order (b before a is false - a after b) and its trace equals the
predicted per-table blocks. -/
theorem generate_order_and_sequencing_witness :
    sortedRev (get_model_metadata sdAB) = true ∧
    allReflected sdAB (get_model_metadata sdAB) = true ∧
    trGenAB = expectedTrace sdAB :=
  generate_order_and_sequencing sdAB 2 stEmpty stGenAB trGenAB (by rfl)

/-- Existing-value queries never consume recursion fuel: get_table_data can
only fail with a missing-model lookup error. -/
theorem get_table_data_ne_noFuel (sd : Seeder) (db : String → List Row)
    (tn cn : String) : get_table_data sd db tn cn ≠ Except.error GenErr.noFuel := by
  unfold get_table_data
  cases get_model_class sd tn <;> simp

/-- The foreign-key loop runs out of fuel only if one of its own recursive
calls does, and every recursive call it makes targets a table resolved from
one of its foreign keys. -/
theorem genFks_ne_noFuel (recur : Table → GenState → Except GenErr (Row × GenState))
    (sd : Seeder) (colName : String) :
    ∀ (fks : List FKey) (row : Row) (st : GenState),
      (∀ fk ∈ fks, ∀ u, findTable sd.registryTables fk.tableName = some u →
        ∀ st0, recur u st0 ≠ Except.error GenErr.noFuel) →
      genFks recur sd colName fks row st ≠ Except.error GenErr.noFuel := by
  intro fks
  induction fks with
  | nil =>
    intro row st _ hcontra
    simp [genFks] at hcontra
  | cons fk rest ih =>
    intro row st hrec hcontra
    have hrest : ∀ fk' ∈ rest, ∀ u, findTable sd.registryTables fk'.tableName = some u →
        ∀ st0, recur u st0 ≠ Except.error GenErr.noFuel :=
      fun fk' hfk' => hrec fk' (List.mem_cons_of_mem _ hfk')
    rw [genFks] at hcontra
    cases gtd : get_table_data sd st.db fk.tableName fk.columnName with
    | error e =>
      rw [gtd] at hcontra
      dsimp only at hcontra
      injection hcontra with h
      rw [h] at gtd
      exact get_table_data_ne_noFuel sd st.db fk.tableName fk.columnName gtd
    | ok records =>
      rw [gtd] at hcontra
      dsimp only at hcontra
      by_cases hemp : records.isEmpty = true
      · rw [if_pos hemp] at hcontra
        cases hft : findTable sd.registryTables fk.tableName with
        | none =>
          rw [hft] at hcontra
          exact ih row st hrest hcontra
        | some target =>
          rw [hft] at hcontra
          dsimp only at hcontra
          cases hrc : recur target st with
          | error e =>
            rw [hrc] at hcontra
            dsimp only at hcontra
            injection hcontra with h
            rw [h] at hrc
            exact hrec fk (List.mem_cons_self _ _) target hft st hrc
          | ok p =>
            obtain ⟨newData, st1⟩ := p
            rw [hrc] at hcontra
            dsimp only at hcontra
            exact ih row _ hrest hcontra
      · rw [if_neg hemp] at hcontra
        exact ih _ _ hrest hcontra

/-- The per-column loop runs out of fuel only if a recursive call made while
resolving one of the columns' foreign keys does. -/
theorem genCols_ne_noFuel (recur : Table → GenState → Except GenErr (Row × GenState))
    (sd : Seeder) :
    ∀ (cols : List Column) (row : Row) (st : GenState),
      (∀ c ∈ cols, ∀ fk ∈ c.foreign_keys, ∀ u,
        findTable sd.registryTables fk.tableName = some u →
        ∀ st0, recur u st0 ≠ Except.error GenErr.noFuel) →
      genCols recur sd cols row st ≠ Except.error GenErr.noFuel := by
  intro cols
  induction cols with
  | nil =>
    intro row st _ hcontra
    simp [genCols] at hcontra
  | cons c rest ih =>
    intro row st hrec hcontra
    rw [genCols] at hcontra
    cases hfk : genFks recur sd c.name c.foreign_keys
        (pkOverride c (typeLoop (get_data_type_mapper st).1 c row) (get_data_type_mapper st).2).1
        (pkOverride c (typeLoop (get_data_type_mapper st).1 c row) (get_data_type_mapper st).2).2 with
    | error e =>
      rw [hfk] at hcontra
      dsimp only at hcontra
      injection hcontra with h
      rw [h] at hfk
      exact genFks_ne_noFuel recur sd c.name c.foreign_keys _ _
        (fun fk hfkm => hrec c (List.mem_cons_self _ _) fk hfkm) hfk
    | ok p =>
      obtain ⟨row2, st2⟩ := p
      rw [hfk] at hcontra
      dsimp only at hcontra
      exact ih row2 st2 (fun c' hc' => hrec c' (List.mem_cons_of_mem _ hc')) hcontra

/-- C10: on a schema whose foreign-key reference graph is acyclic - witnessed
by a rank function that strictly decreases along every resolved foreign-key
edge - row synthesis terminates: every recursive call targets a table of
strictly smaller rank, so fuel exceeding the starting table's rank (itself
bounded by the longest foreign-key path) is never exhausted. -/
theorem generate_fake_row_data_terminates_on_acyclic (sd : Seeder)
    (rank : String → Nat)
    (hrank : ∀ t ∈ sd.registryTables, ∀ c ∈ t.columns, ∀ fk ∈ c.foreign_keys,
      rankDecreases sd rank t fk) :
    ∀ fuel, ∀ t ∈ sd.registryTables, rank t.name < fuel →
      ∀ st, generate_fake_row_data sd fuel t st ≠ Except.error GenErr.noFuel := by
  intro fuel
  induction fuel with
  | zero =>
    intro t _ hr
    omega
  | succ fuel ih =>
    intro t ht hr st
    show genCols (generate_fake_row_data sd fuel) sd t.columns [] st ≠ _
    apply genCols_ne_noFuel
    intro c hc fk hfk u hu st0
    have hd := hrank t ht c hc fk hfk
    unfold rankDecreases at hd
    rw [hu] at hd
    have hmem : u ∈ sd.registryTables := List.mem_of_find?_eq_some hu
    exact ih u hmem (by omega) st0

/-- C10 (witness): the foreign-key graph of sdAB (a references b) is acyclic
under rankAB, and synthesizing a row for table a with fuel 2, one more than
table a's rank, does not exhaust the fuel. -/
theorem generate_fake_row_data_terminates_on_acyclic_witness :
    generate_fake_row_data sdAB 2 tblA stEmpty ≠ Except.error GenErr.noFuel :=
  generate_fake_row_data_terminates_on_acyclic sdAB rankAB (by decide) 2 tblA
    (by decide) (by decide) stEmpty

/-- Reading back the column just assigned yields the assigned value. -/
theorem getCol_setCol_self (r : Row) (k : String) (v : Value) :
    getCol (setCol r k v) k = some v := by
  induction r with
  | nil => simp [setCol, getCol]
  | cons p rest ih =>
    obtain ⟨k0, v0⟩ := p
    by_cases h : k0 = k
    · subst h
      simp [setCol, getCol]
    · simp [setCol, getCol, h, ih]

/-- Assigning one column leaves every other column unchanged. -/
theorem getCol_setCol_ne (r : Row) (k k' : String) (v : Value) (h : k ≠ k') :
    getCol (setCol r k v) k' = getCol r k' := by
  induction r with
  | nil => simp [setCol, getCol, h]
  | cons p rest ih =>
    obtain ⟨k0, v0⟩ := p
    by_cases h0 : k0 = k
    · subst h0
      simp [setCol, getCol, h]
    · simp only [setCol, if_neg h0]
      by_cases h1 : k0 = k'
      · simp [getCol, h1]
      · simp [getCol, h1, ih]

/-- Assigning a column never removes an entry present in the row. -/
theorem getCol_setCol_isSome (r : Row) (k k' : String) (v : Value)
    (h : (getCol r k').isSome = true) :
    (getCol (setCol r k v) k').isSome = true := by
  by_cases hk : k = k'
  · subst hk
    rw [getCol_setCol_self]
    rfl
  · rw [getCol_setCol_ne r k k' v hk]
    exact h

/-- One step of the type-registry loop. -/
theorem typeLoop_cons (m : DataType × Value) (maps : List (DataType × Value))
    (c : Column) (row : Row) :
    typeLoop (m :: maps) c row
      = typeLoop maps c (if m.1 == c.ty then setCol row c.name m.2 else row) := rfl

/-- The type-registry loop only ever writes the current column. -/
theorem getCol_typeLoop_ne (maps : List (DataType × Value)) (c : Column) (k : String)
    (h : c.name ≠ k) : ∀ row, getCol (typeLoop maps c row) k = getCol row k := by
  induction maps with
  | nil => intro row; rfl
  | cons m rest ih =>
    intro row
    rw [typeLoop_cons, ih]
    by_cases hm : m.1 == c.ty
    · rw [if_pos hm, getCol_setCol_ne _ _ _ _ h]
    · rw [if_neg hm]

/-- The type-registry loop never removes an entry present in the row. -/
theorem getCol_typeLoop_isSome_mono (maps : List (DataType × Value)) (c : Column)
    (k : String) :
    ∀ row, (getCol row k).isSome = true →
      (getCol (typeLoop maps c row) k).isSome = true := by
  induction maps with
  | nil => intro row h; exact h
  | cons m rest ih =>
    intro row h
    rw [typeLoop_cons]
    apply ih
    by_cases hm : m.1 == c.ty
    · rw [if_pos hm]
      exact getCol_setCol_isSome _ _ _ _ h
    · rw [if_neg hm]
      exact h

/-- A column of supported type always receives a value from the registry
loop: the mapper holds one entry per supported type. -/
theorem getCol_typeLoop_mapper_isSome (st : GenState) (c : Column) (row : Row)
    (h : supported c.ty = true) :
    (getCol (typeLoop (get_data_type_mapper st).1 c row) c.name).isSome = true := by
  cases hty : c.ty
  case other =>
    rw [hty] at h
    exact absurd h (by simp [supported])
  all_goals
    simp [get_data_type_mapper, typeLoop, hty, getCol_setCol_self]

/-- A column of unsupported type matches no mapper entry: the registry loop
leaves the row unchanged. -/
theorem typeLoop_mapper_unsupported (st : GenState) (c : Column) (row : Row)
    (h : supported c.ty = false) :
    typeLoop (get_data_type_mapper st).1 c row = row := by
  cases hty : c.ty <;> rw [hty] at h
  case other => simp [get_data_type_mapper, typeLoop, hty]
  all_goals exact absurd h (by simp [supported])

/-- Closed form of the primary-key override: only the UUID branch can fire,
because the integer branch is guarded by the always-false isPyInt test. -/
theorem pkOverride_eq (c : Column) (row : Row) (st : GenState) :
    pkOverride c row st =
      if c.primary_key && (c.ty == DataType.uuid) then
        (setCol row c.name (Value.vUuid st.uuidCtr),
          { st with uuidCtr := st.uuidCtr + 1 })
      else (row, st) := by
  unfold pkOverride
  simp [isPyInt, drawUuid]

/-- The primary-key override only ever writes the current column. -/
theorem pkOverride_getCol_ne (c : Column) (row : Row) (st : GenState) (k : String)
    (h : c.name ≠ k) : getCol (pkOverride c row st).1 k = getCol row k := by
  rw [pkOverride_eq]
  by_cases hc : c.primary_key && (c.ty == DataType.uuid)
  · rw [if_pos hc]
    exact getCol_setCol_ne _ _ _ _ h
  · rw [if_neg hc]

/-- The primary-key override never removes an entry present in the row. -/
theorem pkOverride_isSome_mono (c : Column) (row : Row) (st : GenState) (k : String)
    (h : (getCol row k).isSome = true) :
    (getCol (pkOverride c row st).1 k).isSome = true := by
  rw [pkOverride_eq]
  by_cases hc : c.primary_key && (c.ty == DataType.uuid)
  · rw [if_pos hc]
    exact getCol_setCol_isSome _ _ _ _ h
  · rw [if_neg hc]
    exact h

/-- The primary-key override never decreases the uuid counter. -/
theorem pkOverride_uuidCtr_le (c : Column) (row : Row) (st : GenState) :
    st.uuidCtr ≤ (pkOverride c row st).2.uuidCtr := by
  rw [pkOverride_eq]
  by_cases hc : c.primary_key && (c.ty == DataType.uuid)
  · rw [if_pos hc]
    exact Nat.le_succ _
  · rw [if_neg hc]

/-- Building the type mapper consumes exactly one uuid draw. -/
theorem mapper_uuidCtr (st : GenState) :
    (get_data_type_mapper st).2.uuidCtr = st.uuidCtr + 1 := rfl

/-- A random-stream draw leaves the uuid counter unchanged. -/
theorem drawNat_uuidCtr (st : GenState) : (drawNat st).2.uuidCtr = st.uuidCtr := rfl

/-- The foreign-key loop only ever writes the current column: every other
column of the row passes through unchanged (recursive calls build a separate
row for the target table). -/
theorem genFks_getCol_ne (recur : Table → GenState → Except GenErr (Row × GenState))
    (sd : Seeder) (colName : String) (k : String) (h : colName ≠ k) :
    ∀ (fks : List FKey) (row : Row) (st : GenState) (row' : Row) (st' : GenState),
      genFks recur sd colName fks row st = Except.ok (row', st') →
      getCol row' k = getCol row k := by
  intro fks
  induction fks with
  | nil =>
    intro row st row' st' hok
    rw [genFks] at hok
    cases hok
    rfl
  | cons fk rest ih =>
    intro row st row' st' hok
    rw [genFks] at hok
    cases gtd : get_table_data sd st.db fk.tableName fk.columnName with
    | error e => rw [gtd] at hok; cases hok
    | ok records =>
      rw [gtd] at hok
      dsimp only at hok
      by_cases hemp : records.isEmpty = true
      · rw [if_pos hemp] at hok
        cases hft : findTable sd.registryTables fk.tableName with
        | none =>
          rw [hft] at hok
          exact ih _ _ _ _ hok
        | some target =>
          rw [hft] at hok
          dsimp only at hok
          cases hrc : recur target st with
          | error e => rw [hrc] at hok; cases hok
          | ok p =>
            obtain ⟨newData, st1⟩ := p
            rw [hrc] at hok
            dsimp only at hok
            exact ih _ _ _ _ hok
      · rw [if_neg hemp] at hok
        rw [ih _ _ _ _ hok, getCol_setCol_ne _ _ _ _ h]

/-- The foreign-key loop never removes an entry present in the row. -/
theorem genFks_isSome_mono (recur : Table → GenState → Except GenErr (Row × GenState))
    (sd : Seeder) (colName : String) (k : String) :
    ∀ (fks : List FKey) (row : Row) (st : GenState) (row' : Row) (st' : GenState),
      genFks recur sd colName fks row st = Except.ok (row', st') →
      (getCol row k).isSome = true → (getCol row' k).isSome = true := by
  intro fks
  induction fks with
  | nil =>
    intro row st row' st' hok h
    rw [genFks] at hok
    cases hok
    exact h
  | cons fk rest ih =>
    intro row st row' st' hok h
    rw [genFks] at hok
    cases gtd : get_table_data sd st.db fk.tableName fk.columnName with
    | error e => rw [gtd] at hok; cases hok
    | ok records =>
      rw [gtd] at hok
      dsimp only at hok
      by_cases hemp : records.isEmpty = true
      · rw [if_pos hemp] at hok
        cases hft : findTable sd.registryTables fk.tableName with
        | none =>
          rw [hft] at hok
          exact ih _ _ _ _ hok h
        | some target =>
          rw [hft] at hok
          dsimp only at hok
          cases hrc : recur target st with
          | error e => rw [hrc] at hok; cases hok
          | ok p =>
            obtain ⟨newData, st1⟩ := p
            rw [hrc] at hok
            dsimp only at hok
            exact ih _ _ _ _ hok h
      · rw [if_neg hemp] at hok
        exact ih _ _ _ _ hok (getCol_setCol_isSome _ _ _ _ h)

/-- The foreign-key loop never decreases the uuid counter, provided the
recursive generator it delegates to never does. -/
theorem genFks_uuidCtr_le (recur : Table → GenState → Except GenErr (Row × GenState))
    (sd : Seeder) (colName : String)
    (hrec : ∀ u st0 r s1, recur u st0 = Except.ok (r, s1) → st0.uuidCtr ≤ s1.uuidCtr) :
    ∀ (fks : List FKey) (row : Row) (st : GenState) (row' : Row) (st' : GenState),
      genFks recur sd colName fks row st = Except.ok (row', st') →
      st.uuidCtr ≤ st'.uuidCtr := by
  intro fks
  induction fks with
  | nil =>
    intro row st row' st' hok
    rw [genFks] at hok
    cases hok
    exact Nat.le_refl _
  | cons fk rest ih =>
    intro row st row' st' hok
    rw [genFks] at hok
    cases gtd : get_table_data sd st.db fk.tableName fk.columnName with
    | error e => rw [gtd] at hok; cases hok
    | ok records =>
      rw [gtd] at hok
      dsimp only at hok
      by_cases hemp : records.isEmpty = true
      · rw [if_pos hemp] at hok
        cases hft : findTable sd.registryTables fk.tableName with
        | none =>
          rw [hft] at hok
          exact ih _ _ _ _ hok
        | some target =>
          rw [hft] at hok
          dsimp only at hok
          cases hrc : recur target st with
          | error e => rw [hrc] at hok; cases hok
          | ok p =>
            obtain ⟨newData, st1⟩ := p
            rw [hrc] at hok
            dsimp only at hok
            have h1 : st.uuidCtr ≤ st1.uuidCtr := hrec target st newData st1 hrc
            have h2 := ih _ _ _ _ hok
            exact Nat.le_trans h1 h2
      · rw [if_neg hemp] at hok
        have := ih _ _ _ _ hok
        rw [drawNat_uuidCtr] at this
        exact this

/-- The column loop never removes an entry present in the row. -/
theorem genCols_isSome_mono (recur : Table → GenState → Except GenErr (Row × GenState))
    (sd : Seeder) (k : String) :
    ∀ (cols : List Column) (row : Row) (st : GenState) (row' : Row) (st' : GenState),
      genCols recur sd cols row st = Except.ok (row', st') →
      (getCol row k).isSome = true → (getCol row' k).isSome = true := by
  intro cols
  induction cols with
  | nil =>
    intro row st row' st' hok h
    rw [genCols] at hok
    cases hok
    exact h
  | cons c rest ih =>
    intro row st row' st' hok h
    rw [genCols] at hok
    cases hfk : genFks recur sd c.name c.foreign_keys
        (pkOverride c (typeLoop (get_data_type_mapper st).1 c row)
          (get_data_type_mapper st).2).1
        (pkOverride c (typeLoop (get_data_type_mapper st).1 c row)
          (get_data_type_mapper st).2).2 with
    | error e => rw [hfk] at hok; cases hok
    | ok p =>
      obtain ⟨row2, st2⟩ := p
      rw [hfk] at hok
      dsimp only at hok
      apply ih _ _ _ _ hok
      apply genFks_isSome_mono recur sd c.name k _ _ _ _ _ hfk
      apply pkOverride_isSome_mono
      exact getCol_typeLoop_isSome_mono _ _ _ _ h

/-- Columns whose names differ from k never affect the value of k in the
row. -/
theorem genCols_getCol_not_touched
    (recur : Table → GenState → Except GenErr (Row × GenState))
    (sd : Seeder) (k : String) :
    ∀ (cols : List Column), (∀ c ∈ cols, c.name ≠ k) →
      ∀ (row : Row) (st : GenState) (row' : Row) (st' : GenState),
        genCols recur sd cols row st = Except.ok (row', st') →
        getCol row' k = getCol row k := by
  intro cols
  induction cols with
  | nil =>
    intro _ row st row' st' hok
    rw [genCols] at hok
    cases hok
    rfl
  | cons c rest ih =>
    intro hnames row st row' st' hok
    have hc : c.name ≠ k := hnames c (List.mem_cons_self _ _)
    rw [genCols] at hok
    cases hfk : genFks recur sd c.name c.foreign_keys
        (pkOverride c (typeLoop (get_data_type_mapper st).1 c row)
          (get_data_type_mapper st).2).1
        (pkOverride c (typeLoop (get_data_type_mapper st).1 c row)
          (get_data_type_mapper st).2).2 with
    | error e => rw [hfk] at hok; cases hok
    | ok p =>
      obtain ⟨row2, st2⟩ := p
      rw [hfk] at hok
      dsimp only at hok
      rw [ih (fun c' h' => hnames c' (List.mem_cons_of_mem _ h')) _ _ _ _ hok,
        genFks_getCol_ne recur sd c.name k hc _ _ _ _ _ hfk,
        pkOverride_getCol_ne _ _ _ _ hc, getCol_typeLoop_ne _ _ _ hc]

/-- The column loop never decreases the uuid counter, provided the recursive
generator it delegates to never does. -/
theorem genCols_uuidCtr_le (recur : Table → GenState → Except GenErr (Row × GenState))
    (sd : Seeder)
    (hrec : ∀ u st0 r s1, recur u st0 = Except.ok (r, s1) → st0.uuidCtr ≤ s1.uuidCtr) :
    ∀ (cols : List Column) (row : Row) (st : GenState) (row' : Row) (st' : GenState),
      genCols recur sd cols row st = Except.ok (row', st') →
      st.uuidCtr ≤ st'.uuidCtr := by
  intro cols
  induction cols with
  | nil =>
    intro row st row' st' hok
    rw [genCols] at hok
    cases hok
    exact Nat.le_refl _
  | cons c rest ih =>
    intro row st row' st' hok
    rw [genCols] at hok
    cases hfk : genFks recur sd c.name c.foreign_keys
        (pkOverride c (typeLoop (get_data_type_mapper st).1 c row)
          (get_data_type_mapper st).2).1
        (pkOverride c (typeLoop (get_data_type_mapper st).1 c row)
          (get_data_type_mapper st).2).2 with
    | error e => rw [hfk] at hok; cases hok
    | ok p =>
      obtain ⟨row2, st2⟩ := p
      rw [hfk] at hok
      dsimp only at hok
      have h1 : st.uuidCtr ≤ (get_data_type_mapper st).2.uuidCtr := by
        rw [mapper_uuidCtr]
        exact Nat.le_succ _
      have h2 := pkOverride_uuidCtr_le c
        (typeLoop (get_data_type_mapper st).1 c row) (get_data_type_mapper st).2
      have h3 := genFks_uuidCtr_le recur sd c.name hrec _ _ _ _ _ hfk
      have h4 := ih _ _ _ _ hok
      omega

/-- The uuid counter never decreases across a full row synthesis. -/
theorem gen_uuidCtr_le (sd : Seeder) :
    ∀ (fuel : Nat) (t : Table) (st : GenState) (row : Row) (st' : GenState),
      generate_fake_row_data sd fuel t st = Except.ok (row, st') →
      st.uuidCtr ≤ st'.uuidCtr := by
  intro fuel
  induction fuel with
  | zero =>
    intro t st row st' h
    rw [generate_fake_row_data] at h
    cases h
  | succ fuel ih =>
    intro t st row st' h
    rw [generate_fake_row_data] at h
    exact genCols_uuidCtr_le _ sd (fun u st0 r s1 hr => ih u st0 r s1 hr)
      t.columns [] st row st' h

/-- Every column of supported type processed by the column loop ends up with
a value in the row. -/
theorem genCols_supported_isSome
    (recur : Table → GenState → Except GenErr (Row × GenState)) (sd : Seeder) :
    ∀ (cols : List Column) (row : Row) (st : GenState) (row' : Row) (st' : GenState),
      genCols recur sd cols row st = Except.ok (row', st') →
      ∀ c ∈ cols, supported c.ty = true → (getCol row' c.name).isSome = true := by
  intro cols
  induction cols with
  | nil =>
    intro row st row' st' _ c hc
    exact absurd hc (List.not_mem_nil c)
  | cons c0 rest ih =>
    intro row st row' st' hok c hc hsup
    rw [genCols] at hok
    cases hfk : genFks recur sd c0.name c0.foreign_keys
        (pkOverride c0 (typeLoop (get_data_type_mapper st).1 c0 row)
          (get_data_type_mapper st).2).1
        (pkOverride c0 (typeLoop (get_data_type_mapper st).1 c0 row)
          (get_data_type_mapper st).2).2 with
    | error e => rw [hfk] at hok; cases hok
    | ok p =>
      obtain ⟨row2, st2⟩ := p
      rw [hfk] at hok
      dsimp only at hok
      rcases List.mem_cons.mp hc with hceq | hcrest
      · subst hceq
        apply genCols_isSome_mono recur sd c.name rest _ _ _ _ hok
        apply genFks_isSome_mono recur sd c.name c.name _ _ _ _ _ hfk
        apply pkOverride_isSome_mono
        exact getCol_typeLoop_mapper_isSome st c row hsup
      · exact ih _ _ _ _ hok c hcrest hsup

/-- An unsupported column type is one declared outside the closed supported
set: it must be the other case. -/
theorem ty_eq_other_of_not_supported (ty : DataType) (h : supported ty = false) :
    ty = DataType.other := by
  cases ty <;> revert h <;> decide

/-- Widening the lower bound of a freshness interval. -/
theorem isFreshUuidIn_mono (v : Option Value) (lo lo' hi : Nat)
    (hlo : lo ≤ lo') (h : isFreshUuidIn v lo' hi) : isFreshUuidIn v lo hi := by
  unfold isFreshUuidIn at h ⊢
  split at h
  · exact ⟨Nat.le_trans hlo h.1, h.2⟩
  · exact h.elim

/-- A primary-key column of UUID type with no foreign keys receives a uuid
drawn within the span of the column loop: the override writes the fresh
identifier and no later column overwrites it. -/
theorem genCols_pk_uuid_fresh
    (recur : Table → GenState → Except GenErr (Row × GenState)) (sd : Seeder)
    (hrec : ∀ u st0 r s1, recur u st0 = Except.ok (r, s1) → st0.uuidCtr ≤ s1.uuidCtr) :
    ∀ (cols : List Column) (row : Row) (st : GenState) (row' : Row) (st' : GenState),
      genCols recur sd cols row st = Except.ok (row', st') →
      (cols.map (fun c => c.name)).Nodup →
      ∀ c ∈ cols, c.primary_key = true → c.ty = DataType.uuid →
        c.foreign_keys = [] →
        isFreshUuidIn (getCol row' c.name) st.uuidCtr st'.uuidCtr := by
  intro cols
  induction cols with
  | nil =>
    intro row st row' st' _ _ c hc
    exact absurd hc (List.not_mem_nil c)
  | cons c0 rest ih =>
    intro row st row' st' hok hnodup c hc hpk hty hfks
    obtain ⟨hnotin, hnodup'⟩ := List.nodup_cons.mp hnodup
    rcases List.mem_cons.mp hc with hceq | hcrest
    · subst hceq
      rw [genCols] at hok
      rw [hfks, genFks] at hok
      dsimp only at hok
      have hcond : (c.primary_key && (c.ty == DataType.uuid)) = true := by
        rw [hpk, hty]
        rfl
      rw [pkOverride_eq, if_pos hcond] at hok
      dsimp only at hok
      have hnames : ∀ c' ∈ rest, c'.name ≠ c.name := by
        intro c' h' heq
        apply hnotin
        have hmem : c'.name ∈ rest.map (fun x => x.name) :=
          List.mem_map_of_mem (fun x => x.name) h'
        rw [heq] at hmem
        exact hmem
      have hgot : getCol row' c.name
          = some (Value.vUuid ((get_data_type_mapper st).2.uuidCtr)) := by
        rw [genCols_getCol_not_touched recur sd c.name rest hnames _ _ _ _ hok,
          getCol_setCol_self]
      have hle : (get_data_type_mapper st).2.uuidCtr + 1 ≤ st'.uuidCtr := by
        have := genCols_uuidCtr_le recur sd hrec rest _ _ _ _ hok
        exact this
      rw [hgot]
      rw [mapper_uuidCtr] at hle ⊢
      exact ⟨Nat.le_succ _, by omega⟩
    · rw [genCols] at hok
      cases hfk : genFks recur sd c0.name c0.foreign_keys
          (pkOverride c0 (typeLoop (get_data_type_mapper st).1 c0 row)
            (get_data_type_mapper st).2).1
          (pkOverride c0 (typeLoop (get_data_type_mapper st).1 c0 row)
            (get_data_type_mapper st).2).2 with
      | error e => rw [hfk] at hok; cases hok
      | ok p =>
        obtain ⟨row2, st2⟩ := p
        rw [hfk] at hok
        dsimp only at hok
        have h1 : st.uuidCtr ≤ (get_data_type_mapper st).2.uuidCtr := by
          rw [mapper_uuidCtr]
          exact Nat.le_succ _
        have h2 := pkOverride_uuidCtr_le c0
          (typeLoop (get_data_type_mapper st).1 c0 row) (get_data_type_mapper st).2
        have h3 := genFks_uuidCtr_le recur sd c0.name hrec _ _ _ _ _ hfk
        exact isFreshUuidIn_mono _ _ _ _ (by omega)
          (ih _ _ _ _ hok hnodup' c hcrest hpk hty hfks)

/-- A column of unsupported type with no foreign keys passes through the
column loop untouched: no registry entry matches, no override fires and no
other column writes its name. -/
theorem genCols_unsupported_omitted
    (recur : Table → GenState → Except GenErr (Row × GenState)) (sd : Seeder) :
    ∀ (cols : List Column) (row : Row) (st : GenState) (row' : Row) (st' : GenState),
      genCols recur sd cols row st = Except.ok (row', st') →
      (cols.map (fun c => c.name)).Nodup →
      ∀ c ∈ cols, supported c.ty = false → c.foreign_keys = [] →
        getCol row' c.name = getCol row c.name := by
  intro cols
  induction cols with
  | nil =>
    intro row st row' st' _ _ c hc
    exact absurd hc (List.not_mem_nil c)
  | cons c0 rest ih =>
    intro row st row' st' hok hnodup c hc hsup hfks
    obtain ⟨hnotin, hnodup'⟩ := List.nodup_cons.mp hnodup
    rcases List.mem_cons.mp hc with hceq | hcrest
    · subst hceq
      rw [genCols] at hok
      rw [hfks, genFks] at hok
      dsimp only at hok
      have hother : c.ty = DataType.other := ty_eq_other_of_not_supported c.ty hsup
      have hcond : (c.primary_key && (c.ty == DataType.uuid)) = false := by
        rw [hother]
        simp
      rw [typeLoop_mapper_unsupported st c row hsup, pkOverride_eq, if_neg
        (by rw [hcond]; exact Bool.false_ne_true)] at hok
      dsimp only at hok
      have hnames : ∀ c' ∈ rest, c'.name ≠ c.name := by
        intro c' h' heq
        apply hnotin
        have hmem : c'.name ∈ rest.map (fun x => x.name) :=
          List.mem_map_of_mem (fun x => x.name) h'
        rw [heq] at hmem
        exact hmem
      exact genCols_getCol_not_touched recur sd c.name rest hnames _ _ _ _ hok
    · rw [genCols] at hok
      cases hfk : genFks recur sd c0.name c0.foreign_keys
          (pkOverride c0 (typeLoop (get_data_type_mapper st).1 c0 row)
            (get_data_type_mapper st).2).1
          (pkOverride c0 (typeLoop (get_data_type_mapper st).1 c0 row)
            (get_data_type_mapper st).2).2 with
      | error e => rw [hfk] at hok; cases hok
      | ok p =>
        obtain ⟨row2, st2⟩ := p
        rw [hfk] at hok
        dsimp only at hok
        have hc0name : c0.name ≠ c.name := by
          intro heq
          apply hnotin
          have hmem : c.name ∈ rest.map (fun x => x.name) :=
            List.mem_map_of_mem (fun x => x.name) hcrest
          show c0.name ∈ rest.map (fun x => x.name)
          rw [heq]
          exact hmem
        rw [ih _ _ _ _ hok hnodup' c hcrest hsup hfks,
          genFks_getCol_ne recur sd c0.name c.name hc0name _ _ _ _ _ hfk,
          pkOverride_getCol_ne _ _ _ _ hc0name, getCol_typeLoop_ne _ _ _ hc0name]

/-- C6: every successfully synthesized row contains an entry for every column
of the table whose declared type is one of the supported types (temporal,
boolean, integer, floating-point, duration, unique-identifier, text): the
registry loop writes each such column, and no later step removes row
entries. -/
theorem generated_row_covers_supported_columns (sd : Seeder) (fuel : Nat)
    (t : Table) (st : GenState) (row : Row) (st' : GenState)
    (h : generate_fake_row_data sd fuel t st = Except.ok (row, st'))
    (c : Column) (hc : c ∈ t.columns) (hsup : supported c.ty = true) :
    (getCol row c.name).isSome = true := by
  cases fuel with
  | zero =>
    rw [generate_fake_row_data] at h
    cases h
  | succ fuel =>
    rw [generate_fake_row_data] at h
    exact genCols_supported_isSome _ sd t.columns [] st row st' h c hc hsup

/-- C6 (witness): the row synthesized for table b from stDup holds a value
for its supported (UUID) column bid. -/
theorem generated_row_covers_supported_columns_witness :
    (getCol rowDup "bid").isSome = true :=
  generated_row_covers_supported_columns sdOnlyB 1 tblB stDup rowDup stateDup
    (by rfl)
    { name := "bid", ty := DataType.uuid, primary_key := true, foreign_keys := [] }
    (by decide) (by decide)

/-- C7 (amended): a primary-key column of UUID type that carries no foreign
key receives, in every successful synthesis, a unique identifier freshly
drawn during that very call - its counter value lies in the interval of
identifiers generated by the call - replacing whatever the registry
produced, so successive calls yield distinct identifiers. -/
theorem pk_uuid_fresh_without_fk (sd : Seeder) (fuel : Nat) (t : Table)
    (st : GenState) (row : Row) (st' : GenState)
    (h : generate_fake_row_data sd fuel t st = Except.ok (row, st'))
    (hnodup : (t.columns.map (fun c => c.name)).Nodup)
    (c : Column) (hc : c ∈ t.columns) (hpk : c.primary_key = true)
    (hty : c.ty = DataType.uuid) (hfks : c.foreign_keys = []) :
    isFreshUuidIn (getCol row c.name) st.uuidCtr st'.uuidCtr := by
  cases fuel with
  | zero =>
    rw [generate_fake_row_data] at h
    cases h
  | succ fuel =>
    rw [generate_fake_row_data] at h
    exact genCols_pk_uuid_fresh _ sd
      (fun u st0 r s1 hr => gen_uuidCtr_le sd fuel u st0 r s1 hr)
      t.columns [] st row st' h hnodup c hc hpk hty hfks

/-- C7 (witness): the bid value of the b-row synthesized from stDup is an
identifier drawn within this call's counter interval. -/
theorem pk_uuid_fresh_without_fk_witness :
    isFreshUuidIn (getCol rowDup "bid") stDup.uuidCtr stateDup.uuidCtr :=
  pk_uuid_fresh_without_fk sdOnlyB 1 tblB stDup rowDup stateDup (by rfl) (by decide)
    { name := "bid", ty := DataType.uuid, primary_key := true, foreign_keys := [] }
    (by decide) (by decide) (by decide) (by decide)

/-- C8 (amended): a column of unsupported declared type that carries no
foreign key is omitted from every successfully returned row: no registry
entry matches it, no override fires and no other column writes its name;
synthesis completes without error. -/
theorem unsupported_column_omitted_without_fk (sd : Seeder) (fuel : Nat)
    (t : Table) (st : GenState) (row : Row) (st' : GenState)
    (h : generate_fake_row_data sd fuel t st = Except.ok (row, st'))
    (hnodup : (t.columns.map (fun c => c.name)).Nodup)
    (c : Column) (hc : c ∈ t.columns) (hsup : supported c.ty = false)
    (hfks : c.foreign_keys = []) :
    getCol row c.name = none := by
  cases fuel with
  | zero =>
    rw [generate_fake_row_data] at h
    cases h
  | succ fuel =>
    rw [generate_fake_row_data] at h
    rw [genCols_unsupported_omitted _ sd t.columns [] st row st' h hnodup c hc
      hsup hfks]
    rfl

/-- C8 (witness): synthesizing a row for table o succeeds and omits its
unsupported column blob. -/
theorem unsupported_column_omitted_without_fk_witness :
    getCol rowOther "blob" = none :=
  unsupported_column_omitted_without_fk sdOther 1 tblOther stEmpty rowOther
    stateOther (by rfl) (by decide)
    { name := "blob", ty := DataType.other, primary_key := false, foreign_keys := [] }
    (by decide) (by decide) (by decide)

end DataSeeder
